import Mathlib

/-!
Verification development for the FileTransfer repository (server.py,
client.py): a directory-backed TCP file server with a text protocol
(GET:<name> / LIST requests, SIZE:<n> / ERROR:<text> / FILES:<names>
responses, READY handshake, chunked payload), and its client.

The embedding below translates the pure logic of the source into Lean:
POSIX path strings become lists of characters, the filesystem becomes an
association list from canonical paths to nodes, socket reads become an
explicit `ReadResult` input, and the per-connection handler becomes a
total function from its inputs to the trace of messages and payload
chunks it sends.  Python's `try/finally` in `handle_client` is mirrored
by the handler unconditionally producing its close/decrement effects.
-/

namespace FileTransfer

/-- A POSIX path, as the list of characters of the Python string. -/
abbrev Path := List Char

/-- Python `str.split(sep)` with an explicit one-character separator:
`''.split(sep) = ['']`, and every separator occurrence produces a field,
so adjacent separators give empty fields. -/
def splitSep (sep : Char) : List Char → List (List Char)
  | [] => [[]]
  | c :: rest =>
    let r := splitSep sep rest
    if c = sep then [] :: r
    else
      match r with
      | [] => [[c]]
      | h :: t => (c :: h) :: t

/-- Python `sep.join(fields)` for a one-character separator. -/
def joinSep (sep : Char) : List (List Char) → List Char
  | [] => []
  | [x] => x
  | x :: y :: ys => x ++ sep :: joinSep sep (y :: ys)

/-- The component-processing loop of `posixpath.normpath`: empty and `.`
components are dropped; `..` is kept when it cannot be cancelled (at the
head of a relative path, or after a kept `..`), otherwise it pops the
previous component; a leading `..` of an absolute path is dropped. -/
def normComps (initialSlashes : Bool) : List (List Char) → List (List Char) → List (List Char)
  | [], acc => acc
  | comp :: rest, acc =>
    if comp = [] ∨ comp = ['.'] then
      normComps initialSlashes rest acc
    else if comp ≠ ['.', '.'] ∨ (¬ initialSlashes ∧ acc = [])
        ∨ (acc ≠ [] ∧ acc.getLast? = some ['.', '.']) then
      normComps initialSlashes rest (acc ++ [comp])
    else if acc ≠ [] then
      normComps initialSlashes rest acc.dropLast
    else
      normComps initialSlashes rest acc

/-- Python `os.path.normpath` on POSIX: collapse `.`/`..`/empty segments
textually, preserving one leading slash (or exactly two, per the POSIX
double-slash rule); the empty result becomes `.`. -/
def normpath (p : Path) : Path :=
  if p = [] then ['.']
  else
    let initialSlashes := p.head? = some '/'
    let slashes : Nat :=
      if ['/', '/'].isPrefixOf p ∧ ¬ ['/', '/', '/'].isPrefixOf p then 2
      else if initialSlashes then 1 else 0
    let comps := normComps initialSlashes (splitSep '/' p) []
    let res := List.replicate slashes '/' ++ joinSep '/' comps
    if res = [] then ['.'] else res

/-- Python `os.path.join(a, b)` on POSIX: an absolute second argument
replaces the first; otherwise the parts are glued with a `/` unless the
first part is empty or already ends in `/`. -/
def pyJoin (a b : Path) : Path :=
  if b.head? = some '/' then b
  else if a = [] ∨ a.getLast? = some '/' then a ++ b
  else a ++ '/' :: b

/-- A filesystem node: a regular file with its byte contents, or a
directory with its on-disk entry size (what `os.path.getsize` reports
for a directory). -/
inductive FSNode where
  | file (contents : List Nat)
  | dir (sizeOnDisk : Nat)
  deriving DecidableEq

/-- `os.path.getsize`: the byte length of a regular file, the on-disk
entry size of a directory. -/
def FSNode.size : FSNode → Nat
  | .file c => c.length
  | .dir s => s

/-- Whether a node is a regular file (`os.path.isfile`). -/
def FSNode.isRegularFile : FSNode → Bool
  | .file _ => true
  | .dir _ => false

/-- A symlink-free filesystem, as an association list from canonical
(normalized) absolute-or-relative path to node.  `os.path.exists`,
`os.path.getsize` and `open` on a raw path are modelled as lookup of the
path's normalization, which is what the OS resolution computes in the
absence of symlinks. -/
abbrev FileSystem := List (Path × FSNode)

/-- Look a canonical path up in the filesystem. -/
def fsLookup (fs : FileSystem) (p : Path) : Option FSNode :=
  (fs.find? (fun e => decide (e.1 = p))).map (·.2)

/-- One control message sent by the server.  The codec's constant wire
strings (`ERROR:Access denied`, `ERROR:File not found`, `SIZE:<n>`,
`ERROR:Invalid request`, `ERROR:<exception text>`, `FILES:<payload>`)
are represented by the corresponding constructor. -/
inductive ServerMsg where
  | accessDenied
  | notFound
  | size (n : Nat)
  | invalidRequest
  | errorText
  | files (payload : List Char)
  deriving DecidableEq

/-- The outcome of one `recv` call: either the returned bytes (the empty
list when the peer has closed the connection) or a timeout exception. -/
inductive ReadResult where
  | bytes (data : List Char)
  | timeout
  deriving DecidableEq

/-- The chunked read loop of `send_file` (`file.read(buffer_size)` until
an empty read), with fuel: each iteration takes `bufSize` bytes from the
front of the remaining contents and stops on an empty read.  Fuel equal
to the contents length suffices, see `readChunks`. -/
def readChunksFuel : Nat → Nat → List Nat → List (List Nat)
  | 0, _, _ => []
  | fuel + 1, bufSize, contents =>
    if bufSize = 0 ∨ contents = [] then []
    else contents.take bufSize :: readChunksFuel fuel bufSize (contents.drop bufSize)

/-- The sequence of payload chunks `send_file` writes for a file with the
given contents: successive `take bufSize` slices until the file is
exhausted (no chunk at all when `bufSize = 0`, since `file.read(0)`
returns an empty read immediately). -/
def readChunks (bufSize : Nat) (contents : List Nat) : List (List Nat) :=
  readChunksFuel contents.length bufSize contents

/-- What `send_file` sends: the control messages, in order, and the
payload chunks written between or after them (payload always follows all
control messages here, since at most one message precedes streaming). -/
structure SendOutcome where
  msgs : List ServerMsg
  payload : List (List Nat)
  deriving DecidableEq

/-- `FileTransferServer.send_file` (server.py lines 97-148): join the
requested name onto the served directory, refuse with `Access denied`
when the normalized join does not string-start-with the normalized
directory, answer `File not found` when the path does not exist, else
send `SIZE:<getsize>`, wait for the client's `READY`, and stream the file
in `buffer_size` chunks.  A timeout while waiting, or opening a
directory, raises and the `except` branch sends `ERROR:<text>`;
a non-`READY` response returns silently after the `SIZE` message. -/
def sendFile (dir : Path) (bufSize : Nat) (fs : FileSystem) (filename : Path)
    (ready : ReadResult) : SendOutcome :=
  if (normpath dir).isPrefixOf (normpath (pyJoin dir filename)) then
    match fsLookup fs (normpath (pyJoin dir filename)) with
    | none => ⟨[.notFound], []⟩
    | some node =>
      match ready with
      | .timeout => ⟨[.size node.size, .errorText], []⟩
      | .bytes r =>
        if r = "READY".data then
          match node with
          | .file contents => ⟨[.size node.size], readChunks bufSize contents⟩
          | .dir _ => ⟨[.size node.size, .errorText], []⟩
        else ⟨[.size node.size], []⟩
  else ⟨[.accessDenied], []⟩

/-- The names `FileTransferServer.list_files` (server.py lines 150-158)
enumerates: the entries directly under the served root that are regular
files, in listing order (no recursion, no hidden-file filtering). -/
def listedNames (entries : List (Path × FSNode)) : List Path :=
  (entries.filter (fun e => e.2.isRegularFile)).map (·.1)

/-- The payload of the `FILES:` response: the listed names comma-joined
with no escaping (server.py line 156). -/
def filesPayload (entries : List (Path × FSNode)) : List Char :=
  joinSep ',' (listedNames entries)

/-- `list_files`: send a single `FILES:<comma-joined names>` message. -/
def listFiles (entries : List (Path × FSNode)) : SendOutcome :=
  ⟨[.files (filesPayload entries)], []⟩

/-- The client's parse of a `FILES:` payload (client.py line 88:
`response[6:].split(',')`). -/
def parseFiles (payload : List Char) : List (List Char) :=
  splitSep ',' payload

/-- The full trace of one connection handler run: control messages,
payload chunks, whether the connection was closed, and how many times the
active-connection count was decremented. -/
structure HandlerOutcome where
  msgs : List ServerMsg
  payload : List (List Nat)
  closed : Bool
  decrements : Nat
  deriving DecidableEq

/-- `FileTransferServer.handle_client` (server.py lines 72-95): read the
request (60 s timeout); a timeout raises and is swallowed by the
`except` branch, with nothing sent; a request starting with `GET:`
dispatches to `send_file` on the rest of the line; exactly `LIST`
dispatches to `list_files`; anything else — including the empty read of
a vanished client, which decodes to the empty string — gets
`ERROR:Invalid request`.  The `finally` block always closes the
connection and decrements the active-connection count once, so the
outcome records `closed = true` and `decrements = 1` on every path. -/
def handleClient (dir : Path) (bufSize : Nat) (fs : FileSystem)
    (entries : List (Path × FSNode)) (firstRead ready : ReadResult) : HandlerOutcome :=
  let body : SendOutcome :=
    match firstRead with
    | .timeout => ⟨[], []⟩
    | .bytes req =>
      if "GET:".data.isPrefixOf req then sendFile dir bufSize fs (req.drop 4) ready
      else if req = "LIST".data then listFiles entries
      else ⟨[.invalidRequest], []⟩
  ⟨body.msgs, body.payload, true, 1⟩

/-- One step of the client receive loop of `request_file` (client.py
lines 50-56), run over the incoming stream given as the list of `recv`
results: while fewer bytes than announced have arrived, take the next
chunk; an empty chunk (peer closed) breaks the loop; each received chunk
is written to the destination file and `progress_bar(bytes_received,
file_size)` is called.  Returns the final byte count, the chunks written,
and the arguments of every progress-bar call, in order.  An exhausted
input list models a stream with no further traffic. -/
def recvLoop (fileSize : Nat) : Nat → List (List Nat) → Nat × List (List Nat) × List (Nat × Nat)
  | bytesReceived, [] => (bytesReceived, [], [])
  | bytesReceived, c :: cs =>
    if bytesReceived < fileSize then
      if c = [] then (bytesReceived, [], [])
      else
        let r := recvLoop fileSize (bytesReceived + c.length) cs
        (r.1, c :: r.2.1, (bytesReceived + c.length, fileSize) :: r.2.2)
    else (bytesReceived, [], [])

/-- What the client reports after the download path of `request_file`. -/
structure ClientOutcome where
  bytesReceived : Nat
  writes : List (List Nat)
  progressCalls : List (Nat × Nat)
  success : Bool
  deriving DecidableEq

/-- The download path of `request_file` (client.py lines 45-65): after a
`SIZE:<n>` response and sending `READY`, run the receive loop; the code
then unconditionally prints the success message and returns `True`,
whatever the final byte count. -/
def requestFile (fileSize : Nat) (chunks : List (List Nat)) : ClientOutcome :=
  let r := recvLoop fileSize 0 chunks
  ⟨r.1, r.2.1, r.2.2, true⟩

/-- `progress_bar` (client.py lines 8-14) computes `current / total`
(inside `min(1.0, ...)`), which in Python raises `ZeroDivisionError`
when `total = 0`; the model returns `none` exactly there. -/
def progressBar (current total : Nat) : Option ℚ :=
  if total = 0 then none else some (min 1 ((current : ℚ) / total))

/-- The transfer-rate formula shared by server.py line 138 and client.py
line 60: `(file_size / 1024 / 1024) / duration if duration > 0 else 0`,
computed once, after the transfer loop. -/
def transferRate (fileSize duration : ℚ) : ℚ :=
  if duration > 0 then fileSize / 1024 / 1024 / duration else 0

/-- The events of two handler units each performing the unsynchronized
`self.active_connections` update of server.py (line 44 or line 94),
which executes as a read of the shared attribute followed by a write of
the locally computed value; no lock object exists in the source. -/
inductive IncEv where
  | read1
  | write1
  | read2
  | write2
  deriving DecidableEq

/-- The shared counter together with each unit's local register. -/
structure IncState where
  counter : Int
  r1 : Int
  r2 : Int
  deriving DecidableEq

/-- Execute one event: a read copies the shared counter into the unit's
register; a write stores the register plus one back to the counter. -/
def incStep (s : IncState) : IncEv → IncState
  | .read1 => { s with r1 := s.counter }
  | .write1 => { s with counter := s.r1 + 1 }
  | .read2 => { s with r2 := s.counter }
  | .write2 => { s with counter := s.r2 + 1 }

/-- Run a schedule of events from an initial state. -/
def runSched (s : IncState) (evs : List IncEv) : IncState :=
  evs.foldl incStep s

/-- A schedule is an interleaving of the two increments when each unit's
events occur in program order: read before write, each exactly once. -/
def isInterleaving (evs : List IncEv) : Bool :=
  evs.filter (fun e => decide (e = .read1 ∨ e = .write1)) = [.read1, .write1]
    ∧ evs.filter (fun e => decide (e = .read2 ∨ e = .write2)) = [.read2, .write2]

/-- Canonical absolute segment resolution for the spec's notion of
"under the served root": process path segments against an accumulator,
dropping empty and `.` segments, popping on `..` (clamping at the
filesystem root, as the kernel does). -/
def canonSegs (acc : List (List Char)) : List (List Char) → List (List Char)
  | [] => acc
  | s :: rest =>
    if s = [] ∨ s = ['.'] then canonSegs acc rest
    else if s = ['.', '.'] then canonSegs acc.dropLast rest
    else canonSegs (acc ++ [s]) rest

/-- The canonical absolute segment list a path denotes when the process
works in the absolute canonical directory `cwd` (given as segments). -/
def resolveFrom (cwd : List (List Char)) (p : Path) : List (List Char) :=
  if p.head? = some '/' then canonSegs [] (splitSep '/' p)
  else canonSegs cwd (splitSep '/' p)

/-- The spec's "name resolving outside the served root": the canonical
resolution of the joined path does not lie under the canonical
resolution of the root (segment-wise prefix), both taken from the same
working directory. -/
def specOutsideRoot (cwd : List (List Char)) (dir name : Path) : Bool :=
  !((resolveFrom cwd dir).isPrefixOf (resolveFrom cwd (pyJoin dir name)))

theorem readChunksFuel_join (bufSize : Nat) (hb : 0 < bufSize) :
    ∀ (fuel : Nat) (contents : List Nat), contents.length ≤ fuel →
      (readChunksFuel fuel bufSize contents).flatten = contents := by
  intro fuel
  induction fuel with
  | zero =>
    intro contents h
    have : contents = [] := List.length_eq_zero.mp (Nat.le_zero.mp h)
    simp [readChunksFuel, this]
  | succ n ih =>
    intro contents h
    by_cases hc : contents = []
    · simp [readChunksFuel, hc]
    · have hcond : ¬ (bufSize = 0 ∨ contents = []) := by
        push_neg
        exact ⟨Nat.pos_iff_ne_zero.mp hb, hc⟩
      rw [readChunksFuel, if_neg hcond, List.flatten_cons,
        ih (contents.drop bufSize) (by rw [List.length_drop]; omega),
        List.take_append_drop]

/-- The chunks `send_file` writes concatenate to exactly the file's
contents, for any positive chunk size. -/
theorem readChunks_join (bufSize : Nat) (contents : List Nat) (hb : 0 < bufSize) :
    (readChunks bufSize contents).flatten = contents :=
  readChunksFuel_join bufSize hb contents.length contents le_rfl

theorem length_of_mem_readChunksFuel :
    ∀ (fuel bufSize : Nat) (contents : List Nat) (c : List Nat),
      c ∈ readChunksFuel fuel bufSize contents → c.length ≤ bufSize := by
  intro fuel
  induction fuel with
  | zero => intro _ _ _ h; simp [readChunksFuel] at h
  | succ n ih =>
    intro bufSize contents c h
    rw [readChunksFuel] at h
    split at h
    · simp at h
    · rcases List.mem_cons.mp h with h1 | h2
      · rw [h1, List.length_take]
        omega
      · exact ih bufSize (contents.drop bufSize) c h2

/-- Every chunk `send_file` writes has at most the configured size. -/
theorem length_of_mem_readChunks (bufSize : Nat) (contents : List Nat) (c : List Nat)
    (h : c ∈ readChunks bufSize contents) : c.length ≤ bufSize :=
  length_of_mem_readChunksFuel contents.length bufSize contents c h

theorem splitSep_no_sep (sep : Char) (a : List Char) (h : sep ∉ a) :
    splitSep sep a = [a] := by
  induction a with
  | nil => rfl
  | cons c rest ih =>
    have hc : ¬ c = sep := fun e => h (e ▸ List.mem_cons_self c rest)
    have hr : sep ∉ rest := fun m => h (List.mem_cons_of_mem _ m)
    simp [splitSep, hc, ih hr]

theorem splitSep_append (sep : Char) (a s : List Char) (h : sep ∉ a) :
    splitSep sep (a ++ sep :: s) = a :: splitSep sep s := by
  induction a with
  | nil => simp [splitSep]
  | cons c rest ih =>
    have hc : ¬ c = sep := fun e => h (e ▸ List.mem_cons_self c rest)
    have hr : sep ∉ rest := fun m => h (List.mem_cons_of_mem _ m)
    simp [splitSep, hc, ih hr]

/-- Decoding a separator-joined list of separator-free fields recovers
the fields, for any nonempty field list. -/
theorem splitSep_joinSep (sep : Char) :
    ∀ names : List (List Char), names ≠ [] → (∀ n ∈ names, sep ∉ n) →
      splitSep sep (joinSep sep names) = names := by
  intro names
  induction names with
  | nil => intro h; exact absurd rfl h
  | cons x xs ih =>
    intro _ hfree
    cases xs with
    | nil => simpa [joinSep] using splitSep_no_sep sep x (hfree x (by simp))
    | cons y ys =>
      rw [joinSep, splitSep_append sep x _ (hfree x (by simp)),
        ih (by simp) (fun n hn => hfree n (List.mem_cons_of_mem _ hn))]

/-- The names the server lists are exactly the regular files directly
under the served root. -/
theorem mem_listedNames (entries : List (Path × FSNode)) (n : Path) :
    n ∈ listedNames entries ↔ ∃ c, (n, FSNode.file c) ∈ entries := by
  constructor
  · intro h
    rcases List.mem_map.mp h with ⟨⟨p, node⟩, hmem, rfl⟩
    rcases List.mem_filter.mp hmem with ⟨hin, hfile⟩
    cases node with
    | file c => exact ⟨c, hin⟩
    | dir s => simp [FSNode.isRegularFile] at hfile
  · rintro ⟨c, hmem⟩
    exact List.mem_map.mpr ⟨(n, .file c),
      List.mem_filter.mpr ⟨hmem, rfl⟩, rfl⟩

/-- Whatever the inputs, `send_file` streams no payload bytes unless the
client's post-`SIZE` response is exactly the bytes `READY`. -/
theorem sendFile_payload_of_not_ready (dir : Path) (bufSize : Nat) (fs : FileSystem)
    (filename : Path) (ready : ReadResult) (h : ready ≠ .bytes "READY".data) :
    (sendFile dir bufSize fs filename ready).payload = [] := by
  cases ready with
  | timeout =>
    unfold sendFile
    split
    · split <;> rfl
    · rfl
  | bytes r =>
    have hr : ¬ r = "READY".data := fun e => h (by rw [e])
    unfold sendFile
    split
    · split
      · rfl
      · simp [hr]
    · rfl

example : normpath "./hello.txt".data = "hello.txt".data := by decide
example : normpath "./../../etc/passwd".data = "../../etc/passwd".data := by decide
example : normpath "/srv/files/../../etc/passwd".data = "/etc/passwd".data := by decide
example : normpath ".".data = ".".data := by decide
example :
    sendFile ".".data 8192 [("hello.txt".data, .file [104, 105])] "hello.txt".data
      (.bytes "READY".data) = ⟨[.accessDenied], []⟩ := by decide

/-- C1, counterexample: with the server's default served directory `.`,
the name `hello.txt` denotes a regular file under the served root (its
resolution lies under the root), yet `send_file` answers
`ERROR:Access denied` and streams nothing — because
`normpath('./hello.txt') = 'hello.txt'` does not string-start-with
`normpath('.') = '.'`.  So a GET of a regular file under the root does
not always yield `SIZE` plus the contents. -/
theorem C1_counterexample :
    specOutsideRoot ["home".data, "alice".data] ".".data "hello.txt".data = false
    ∧ sendFile ".".data 8192 [("hello.txt".data, .file [104, 105])] "hello.txt".data
        (.bytes "READY".data) = ⟨[.accessDenied], []⟩ := by decide

/-- C1, amended: whenever the normalized join of root and name
string-starts-with the normalized root — which holds for every name
resolving under an absolute canonical root, but fails for the default
relative root `.` — a GET of a regular file followed by `READY` makes
the server send exactly `SIZE:<n>` with `n` the file's byte length and
then payload chunks, each of at most the configured (positive) chunk
size, concatenating to exactly the file's contents. -/
theorem C1_amended (dir : Path) (bufSize : Nat) (fs : FileSystem) (name : Path)
    (contents : List Nat)
    (hguard : (normpath dir).isPrefixOf (normpath (pyJoin dir name)) = true)
    (hfile : fsLookup fs (normpath (pyJoin dir name)) = some (.file contents))
    (hbuf : 0 < bufSize) :
    (sendFile dir bufSize fs name (.bytes "READY".data)).msgs
        = [.size contents.length]
    ∧ (sendFile dir bufSize fs name (.bytes "READY".data)).payload.flatten = contents
    ∧ ∀ c ∈ (sendFile dir bufSize fs name (.bytes "READY".data)).payload,
        c.length ≤ bufSize := by
  have hs : sendFile dir bufSize fs name (.bytes "READY".data)
      = ⟨[.size contents.length], readChunks bufSize contents⟩ := by
    simp [sendFile, hguard, hfile, FSNode.size]
  rw [hs]
  exact ⟨rfl, readChunks_join bufSize contents hbuf,
    fun c hc => length_of_mem_readChunks bufSize contents c hc⟩

/-- C1, witness: a complete two-byte transfer under an absolute
canonical root, obtained from `C1_amended` at a concrete input. -/
theorem C1_witness :
    (sendFile "/srv/files".data 8192 [("/srv/files/hello.txt".data, .file [104, 105])]
        "hello.txt".data (.bytes "READY".data)).msgs = [.size 2]
    ∧ (sendFile "/srv/files".data 8192 [("/srv/files/hello.txt".data, .file [104, 105])]
        "hello.txt".data (.bytes "READY".data)).payload.flatten = [104, 105] := by
  have h := C1_amended "/srv/files".data 8192
    [("/srv/files/hello.txt".data, .file [104, 105])] "hello.txt".data [104, 105]
    (by decide) (by decide) (by decide)
  exact ⟨h.1, h.2.1⟩

/-- C2: the claim says every name resolving outside the served root gets
`ERROR:Access denied` with no payload and no further filesystem access.
The code's comment (`Prevent directory traversal attacks`) states the
same intent, but the startswith check on normalized strings fails it: at
the failing input — served directory `.` (the default) and name
`../../etc/passwd` — the normalized join `../../etc/passwd` does start
with the normalized root `.`, so the request passes the check, touches
the filesystem, and the file is served in full: the server sends
`SIZE:2` and streams the contents, although the name resolves outside
the root (from any working directory; shown here at `/home/alice`). -/
theorem C2_bug :
    specOutsideRoot ["home".data, "alice".data] ".".data "../../etc/passwd".data = true
    ∧ (normpath ".".data).isPrefixOf
        (normpath (pyJoin ".".data "../../etc/passwd".data)) = true
    ∧ sendFile ".".data 8192 [("../../etc/passwd".data, .file [114, 116])]
        "../../etc/passwd".data (.bytes "READY".data)
      = ⟨[.size 2], [[114, 116]]⟩ := by decide

/-- C3: the claim says a transfer in which the stream ends after
`k < n` received bytes is reported as a short transfer, distinct from
success.  The client's own success message (`File received successfully`)
makes that the evident intent, but the code never compares
`bytes_received` with the announced size: at the failing input —
announced `SIZE:10`, one 4-byte chunk and then end of stream — the
receive loop stops at 4 bytes and `request_file` still reports success
(prints the success message and returns `True`). -/
theorem C3_bug :
    requestFile 10 [[1, 2, 3, 4], []] = ⟨4, [[1, 2, 3, 4]], [(4, 10)], true⟩
    ∧ (4 : Nat) < 10 := by decide

/-- C4, counterexample: an existing directory entry under the root is
not answered with `File not found`: `send_file` checks only
`os.path.exists`, so a GET for the subdirectory `sub` passes the check
and the server sends `SIZE:4096` (the directory's on-disk size); only
after `READY` does `open` raise, producing a generic `ERROR:<text>`.
The claim's required response `[notFound]`, with no `SIZE`, is not what
is sent. -/
theorem C4_counterexample :
    (sendFile "/srv/files".data 8192 [("/srv/files/sub".data, .dir 4096)] "sub".data
        (.bytes "READY".data)).msgs = [.size 4096, .errorText]
    ∧ (sendFile "/srv/files".data 8192 [("/srv/files/sub".data, .dir 4096)] "sub".data
        (.bytes "READY".data)).msgs ≠ [ServerMsg.notFound] := by decide

/-- C4, amended: for a name passing the prefix check, a non-existent
path yields exactly `ERROR:File not found` with no `SIZE` and no
payload; an existing directory, however, passes the existence check, so
the server's first message is `SIZE:<getsize of the directory>` — the
failure surfaces only later — though no payload bytes are ever sent for
it. -/
theorem C4_amended (dir : Path) (bufSize : Nat) (fs : FileSystem) (name : Path)
    (ready : ReadResult)
    (hguard : (normpath dir).isPrefixOf (normpath (pyJoin dir name)) = true) :
    (fsLookup fs (normpath (pyJoin dir name)) = none →
      sendFile dir bufSize fs name ready = ⟨[.notFound], []⟩)
    ∧ ∀ sz, fsLookup fs (normpath (pyJoin dir name)) = some (.dir sz) →
        (sendFile dir bufSize fs name ready).msgs.head? = some (.size sz)
        ∧ (sendFile dir bufSize fs name ready).payload = [] := by
  constructor
  · intro hnone
    simp [sendFile, hguard, hnone]
  · intro sz hsz
    cases ready with
    | timeout => simp [sendFile, hguard, hsz, FSNode.size]
    | bytes r =>
      by_cases hr : r = "READY".data
      · simp [sendFile, hguard, hsz, hr, FSNode.size]
      · simp [sendFile, hguard, hsz, hr, FSNode.size]

/-- C4, witness: the not-found branch at a concrete input, obtained from
`C4_amended`. -/
theorem C4_witness :
    sendFile "/srv/files".data 8192 [] "nope.txt".data (.bytes "READY".data)
      = ⟨[.notFound], []⟩ :=
  (C4_amended "/srv/files".data 8192 [] "nope.txt".data (.bytes "READY".data)
    (by decide)).1 (by decide)

/-- C5: whenever the client's post-`SIZE` response is anything other
than the exact bytes `READY` — a different line, an empty read from a
vanished peer, or a timeout — the handler streams no payload bytes; and
on every exit path of `handle_client` the connection is closed and the
active-connection count is decremented exactly once (the `finally`
block). -/
theorem C5_ready_guard (dir : Path) (bufSize : Nat) (fs : FileSystem)
    (entries : List (Path × FSNode)) (firstRead ready : ReadResult) :
    (ready ≠ .bytes "READY".data →
      (handleClient dir bufSize fs entries firstRead ready).payload = [])
    ∧ (handleClient dir bufSize fs entries firstRead ready).closed = true
    ∧ (handleClient dir bufSize fs entries firstRead ready).decrements = 1 := by
  refine ⟨?_, rfl, rfl⟩
  intro h
  cases firstRead with
  | timeout => rfl
  | bytes req =>
    cases hget : "GET:".data.isPrefixOf req with
    | true =>
      simp [handleClient, hget,
        sendFile_payload_of_not_ready dir bufSize fs (req.drop 4) ready h]
    | false =>
      by_cases hlist : req = "LIST".data
      · simp [handleClient, hget, hlist, listFiles]
      · simp [handleClient, hget, hlist]

/-- C5, witness: a client that answers the `SIZE` message with an empty
read (disconnect) receives no payload, and the handler closes and
decrements once; from `C5_ready_guard` at a concrete input. -/
theorem C5_witness :
    (handleClient "/srv/files".data 8192 [("/srv/files/a".data, .file [1])] []
        (.bytes "GET:a".data) (.bytes [])).payload = ([] : List (List Nat))
    ∧ (handleClient "/srv/files".data 8192 [("/srv/files/a".data, .file [1])] []
        (.bytes "GET:a".data) (.bytes [])).closed = true
    ∧ (handleClient "/srv/files".data 8192 [("/srv/files/a".data, .file [1])] []
        (.bytes "GET:a".data) (.bytes [])).decrements = 1 := by
  have h := C5_ready_guard "/srv/files".data 8192 [("/srv/files/a".data, .file [1])] []
    (.bytes "GET:a".data) (.bytes [])
  exact ⟨h.1 (by decide), h.2.1, h.2.2⟩

/-- C6, counterexample: an empty first read (the peer vanished before
sending a request) does not close the connection silently: it decodes to
the empty string, which matches neither `GET:` nor `LIST`, so the
handler sends `ERROR:Invalid request`. -/
theorem C6_counterexample :
    (handleClient "/srv/files".data 8192 [] [] (.bytes []) (.bytes [])).msgs
        = [ServerMsg.invalidRequest]
    ∧ [ServerMsg.invalidRequest] ≠ ([] : List ServerMsg) := by decide

/-- C6, amended: a timeout of the first read closes the connection with
no response sent; an empty first read is treated as an invalid request
and elicits `ERROR:Invalid request`, exactly like any other line that is
neither `LIST` nor a `GET:` request. -/
theorem C6_amended (dir : Path) (bufSize : Nat) (fs : FileSystem)
    (entries : List (Path × FSNode)) (ready : ReadResult) :
    (handleClient dir bufSize fs entries .timeout ready).msgs = []
    ∧ (handleClient dir bufSize fs entries (.bytes []) ready).msgs = [.invalidRequest]
    ∧ ∀ req : List Char, "GET:".data.isPrefixOf req = false → req ≠ "LIST".data →
        (handleClient dir bufSize fs entries (.bytes req) ready).msgs
          = [.invalidRequest] := by
  refine ⟨rfl, rfl, ?_⟩
  intro req h1 h2
  simp [handleClient, h1, h2]

/-- C6, witness: a garbage request line gets `ERROR:Invalid request`;
from `C6_amended` at a concrete input. -/
theorem C6_witness :
    (handleClient ".".data 8192 [] [] (.bytes "HELLO".data) .timeout).msgs
      = [ServerMsg.invalidRequest] :=
  (C6_amended ".".data 8192 [] [] .timeout).2.2 "HELLO".data (by decide) (by decide)

/-- C7, counterexample: for a root whose only entry is a subdirectory
the listing is empty, the `FILES:` payload is the empty string, and the
client's `split(',')` of it yields `[""]` — one empty name — not the
empty listing, so the encode-then-decode identity fails for the empty
listing even though no name contains a comma. -/
theorem C7_counterexample :
    listedNames [("sub".data, FSNode.dir 4096)] = []
    ∧ parseFiles (filesPayload [("sub".data, FSNode.dir 4096)]) = [[]]
    ∧ ([[]] : List (List Char)) ≠ [] := by decide

/-- C7, amended: the listing contains exactly the names of the regular
files directly under the served root (directories excluded, no
recursion, no hidden-file filtering); and for every *nonempty* listing
in which no name contains a comma, the client's parse of the comma-join
recovers exactly the listed names — for the empty listing the client
instead parses one empty name. -/
theorem C7_amended (entries : List (Path × FSNode)) :
    (∀ n : Path, n ∈ listedNames entries ↔ ∃ c, (n, FSNode.file c) ∈ entries)
    ∧ (listedNames entries ≠ [] → (∀ n ∈ listedNames entries, ',' ∉ n) →
        parseFiles (filesPayload entries) = listedNames entries) := by
  constructor
  · intro n
    exact mem_listedNames entries n
  · intro hne hfree
    unfold parseFiles filesPayload
    exact splitSep_joinSep ',' (listedNames entries) hne hfree

/-- C7, witness: a root with two regular files and one subdirectory
round-trips to exactly the two file names; from `C7_amended` at a
concrete input. -/
theorem C7_witness :
    parseFiles (filesPayload [("a.txt".data, FSNode.file [1]),
        ("b.bin".data, FSNode.file [2, 3]), ("sub".data, FSNode.dir 7)])
      = ["a.txt".data, "b.bin".data] := by
  have h := (C7_amended [("a.txt".data, FSNode.file [1]),
    ("b.bin".data, FSNode.file [2, 3]), ("sub".data, FSNode.dir 7)]).2
    (by decide) (by decide)
  rw [h]
  decide

/-- C8: the reported throughput (the formula at server.py line 138 and,
identically, client.py line 60) equals `size / 2^20 / duration` whenever
the measured duration is positive, and is exactly `0` for a
zero-duration transfer — the division is guarded, never performed with a
zero divisor.  The rate is computed once from the final totals, after
the transfer loop; the loop itself (`readChunks` / `recvLoop`) computes
no rate. -/
theorem C8_transfer_rate (s d : ℚ) :
    (0 < d → transferRate s d = s / 2 ^ 20 / d) ∧ transferRate s 0 = 0 := by
  constructor
  · intro hd
    unfold transferRate
    rw [if_pos hd]
    ring
  · unfold transferRate
    rw [if_neg (lt_irrefl 0)]

/-- C8, witness: the rate at size 5 bytes, duration 1, and the zero
rate at duration 0; from `C8_transfer_rate` at concrete inputs. -/
theorem C8_witness :
    transferRate 5 1 = 5 / 2 ^ 20 / 1 ∧ transferRate 5 0 = 0 :=
  ⟨(C8_transfer_rate 5 1).1 one_pos, (C8_transfer_rate 5 0).2⟩

/-- C9, counterexample: the source mutates `active_connections` with no
lock, as a read of the shared attribute followed by a write; the
interleaving that runs both reads before either write is a valid
interleaving of two increments and ends with the counter at 1, a lost
update — so it is false that every interleaving preserves both
updates. -/
theorem C9_counterexample :
    ¬ ∀ evs : List IncEv, isInterleaving evs = true →
        (runSched ⟨0, 0, 0⟩ evs).counter = 2 := by
  intro h
  exact absurd (h [.read1, .read2, .write1, .write2] (by decide)) (by decide)

/-- C9, amended: the increments and decrements of the shared
active-connection count are plain unsynchronized read-modify-write
sequences (no mutual-exclusion primitive exists in the source); a serial
interleaving of two increments yields 2, but the interleaving with both
reads first yields 1, losing an update. -/
theorem C9_amended :
    isInterleaving [IncEv.read1, IncEv.read2, IncEv.write1, IncEv.write2] = true
    ∧ (runSched ⟨0, 0, 0⟩ [IncEv.read1, IncEv.read2, IncEv.write1, IncEv.write2]).counter = 1
    ∧ isInterleaving [IncEv.read1, IncEv.write1, IncEv.read2, IncEv.write2] = true
    ∧ (runSched ⟨0, 0, 0⟩
        [IncEv.read1, IncEv.write1, IncEv.read2, IncEv.write2]).counter = 2 := by
  decide

/-- C10: on a `SIZE:0` download the client's receive-loop guard
`bytes_received < file_size` is false at once, so the loop body never
runs: nothing is read, nothing is written (the destination file stays
empty), `progress_bar` is never called — in particular its division
`current / total`, which would be a division by zero for total 0 (the
model returns `none` exactly there), is never reached — and the client
reports success. -/
theorem C10_zero_size (chunks : List (List Nat)) :
    requestFile 0 chunks = ⟨0, [], [], true⟩
    ∧ ∀ ct : Nat, progressBar ct 0 = none := by
  constructor
  · cases chunks with
    | nil => rfl
    | cons c cs => rfl
  · intro ct
    rfl

end FileTransfer
